import Mathlib

/-!
Verification of the background-daemon core of pkazmierczak/musictagger
(the librato daemon): the durable state store (internal/state.go), its
atomic persistence, the debouncing file watcher (watcher.go), the daemon
supervisor with its PID-file singleton (daemon.go), and the artwork
fetcher.  Go maps are embedded as association lists with Go-map
insert/lookup semantics, time.Time values as natural-number instants,
and fallible I/O as explicit fault oracles.
-/

set_option autoImplicit false

namespace Librato

/-! ## Go map embedding

A Go map[string]V is modelled as an association list with at most one
binding per key; insertion overwrites the existing binding in place. -/

def mapLookup {α : Type} : List (String × α) → String → Option α
  | [], _ => none
  | (k, v) :: rest, key => if k = key then some v else mapLookup rest key

def mapInsert {α : Type} : List (String × α) → String → α → List (String × α)
  | [], key, v => [(key, v)]
  | (k, w) :: rest, key, v =>
      if k = key then (key, v) :: rest else (k, w) :: mapInsert rest key v

def mapErase {α : Type} : List (String × α) → String → List (String × α)
  | [], _ => []
  | (k, v) :: rest, key =>
      if k = key then mapErase rest key else (k, v) :: mapErase rest key

def mapKeys {α : Type} (m : List (String × α)) : List String :=
  m.map (fun kv => kv.1)

/-! ## StateStore (internal/state.go, the durable gob-persisted variant)

ProcessedFile / ProcessingStats / DaemonState mirror the exported fields
of the Go structs; the mutex is a no-op in this sequential embedding and
the unexported filePath field is kept because Save and LoadState use it. -/

structure ProcessedFile where
  path : String
  hash : String
  processedAt : Nat
  targetPath : String
  success : Bool
deriving DecidableEq, Repr

structure ProcessingStats where
  totalProcessed : Nat
  totalSuccess : Nat
  totalFailed : Nat
  startTime : Nat
deriving DecidableEq, Repr

structure DaemonState where
  processedFiles : List (String × ProcessedFile)
  lastRun : Nat
  stats : ProcessingStats
  filePath : String
deriving DecidableEq, Repr

/-- NewDaemonState: empty map, LastRun and Stats.StartTime set to now. -/
def newDaemonState (now : Nat) (filePath : String) : DaemonState :=
  { processedFiles := []
    lastRun := now
    stats := { totalProcessed := 0, totalSuccess := 0, totalFailed := 0, startTime := now }
    filePath := filePath }

/-- IsProcessed: true only if a record for the path exists and its stored
hash equals the given hash. -/
def DaemonState.isProcessed (s : DaemonState) (filePath hash : String) : Bool :=
  match mapLookup s.processedFiles filePath with
  | none => false
  | some processed => processed.hash = hash

/-- MarkProcessed: insert or overwrite the record keyed by file.Path and
bump TotalProcessed plus exactly one of TotalSuccess / TotalFailed. -/
def DaemonState.markProcessed (s : DaemonState) (file : ProcessedFile) : DaemonState :=
  let stats1 := { s.stats with totalProcessed := s.stats.totalProcessed + 1 }
  let stats2 :=
    if file.success then { stats1 with totalSuccess := stats1.totalSuccess + 1 }
    else { stats1 with totalFailed := stats1.totalFailed + 1 }
  { s with processedFiles := mapInsert s.processedFiles file.path file, stats := stats2 }

/-- Cleanup: delete records whose ProcessedAt is before now - maxAge and
return the new state together with the number of removed records. -/
def DaemonState.cleanup (s : DaemonState) (now maxAge : Nat) : DaemonState × Nat :=
  let cutoff := now - maxAge
  let kept := s.processedFiles.filter (fun kv => !(kv.2.processedAt < cutoff : Bool))
  ({ s with processedFiles := kept }, s.processedFiles.length - kept.length)

/-- GetStats returns the current statistics. -/
def DaemonState.getStats (s : DaemonState) : ProcessingStats := s.stats

/-- GetProcessedCount returns the number of records currently retained. -/
def DaemonState.getProcessedCount (s : DaemonState) : Nat := s.processedFiles.length

/-! ## Persistence: Save and LoadState

The filesystem is a map from path to file contents; a gob blob either
decodes to the exported fields of a DaemonState or is corrupt.  Save
goes through mkdir, create-temp, encode, close, rename, any of which the
fault oracle may fail, exactly mirroring the error paths of the Go code. -/

inductive FileData where
  | snapshot (files : List (String × ProcessedFile)) (lastRun : Nat) (stats : ProcessingStats)
  | corrupt
deriving DecidableEq, Repr

abbrev FS := List (String × FileData)

/-- Gob-encoding a DaemonState serializes its exported fields
(ProcessedFiles, LastRun, Stats); mutex and filePath are unexported. -/
def encodeState (s : DaemonState) : FileData :=
  .snapshot s.processedFiles s.lastRun s.stats

/-- Rename moves the contents at src onto dst in one atomic step. -/
def fsRename (fs : FS) (src dst : String) : FS :=
  match mapLookup fs src with
  | some d => mapInsert (mapErase fs src) dst d
  | none => fs

inductive SaveFault where
  | ok
  | mkdirFail
  | createFail
  | encodeFail
  | closeFail
  | renameFail
deriving DecidableEq, Repr

/-- Save persists the state via temp file (filePath + ".tmp") plus atomic
rename; every error branch removes the temp file exactly as the code does
(on createFail the temp file was never created, so nothing is removed). -/
def DaemonState.save (s : DaemonState) (fault : SaveFault) (fs : FS) :
    Except String Unit × FS :=
  let tempFile := s.filePath ++ ".tmp"
  match fault with
  | .mkdirFail => (.error "failed to create state directory", fs)
  | .createFail => (.error "failed to create temp state file", fs)
  | .encodeFail =>
      (.error "failed to encode state",
        mapErase (mapInsert fs tempFile .corrupt) tempFile)
  | .closeFail =>
      (.error "failed to close temp state file",
        mapErase (mapInsert fs tempFile (encodeState s)) tempFile)
  | .renameFail =>
      (.error "failed to rename state file",
        mapErase (mapInsert fs tempFile (encodeState s)) tempFile)
  | .ok =>
      (.ok (), fsRename (mapInsert fs tempFile (encodeState s)) tempFile s.filePath)

/-- LoadState: a missing file yields a fresh state; an open failure other
than not-exist is an error; an undecodable file yields a fresh state with
a warning; a good snapshot is loaded with filePath and LastRun reset. -/
def loadState (fs : FS) (openFails : Bool) (filePath : String) (now : Nat) :
    Except String DaemonState :=
  match mapLookup fs filePath with
  | none => .ok (newDaemonState now filePath)
  | some d =>
      if openFails then .error "failed to open state file"
      else
        match d with
        | .corrupt => .ok (newDaemonState now filePath)
        | .snapshot files _ stats =>
            .ok { processedFiles := files, lastRun := now, stats := stats,
                  filePath := filePath }

/-! ## Watcher debounce (watcher.go)

A timer started at time t with quiet period D fires at deadline t + D.
An event trace is consumed in order; before an arrival at time t, every
pending timer whose deadline has passed fires (processFile). -/

structure FileEvent where
  path : String
  lastSeen : Nat
  deadline : Nat
deriving DecidableEq, Repr

structure WatcherState where
  pendingFiles : List (String × FileEvent)
  fired : List String
deriving DecidableEq, Repr

def initialWatcher : WatcherState := { pendingFiles := [], fired := [] }

/-- debounceFile: on a repeated event for a pending path the existing
timer is stopped and replaced; on a first event a fresh entry with a
fresh timer is inserted.  Both branches leave one entry keyed by the
path whose timer fires at t + D. -/
def Watcher.debounceFile (D t : Nat) (filePath : String) (s : WatcherState) : WatcherState :=
  match mapLookup s.pendingFiles filePath with
  | some _ =>
      { s with pendingFiles :=
          mapInsert s.pendingFiles filePath ⟨filePath, t, t + D⟩ }
  | none =>
      { s with pendingFiles :=
          mapInsert s.pendingFiles filePath ⟨filePath, t, t + D⟩ }

/-- processFile: remove the path from the pending map, then process it;
the fired list records processing invocations in order. -/
def Watcher.processFile (filePath : String) (s : WatcherState) : WatcherState :=
  { pendingFiles := mapErase s.pendingFiles filePath
    fired := s.fired ++ [filePath] }

/-- Timers whose deadline has been reached by time t fire. -/
def fireDue (t : Nat) (s : WatcherState) : WatcherState :=
  ((s.pendingFiles.filter (fun kv => (kv.2.deadline ≤ t : Bool))).map
      (fun kv => kv.1)).foldl
    (fun st q => Watcher.processFile q st) s

def handleArrival (D : Nat) (p : String) (t : Nat) (s : WatcherState) : WatcherState :=
  Watcher.debounceFile D t p (fireDue t s)

def runDebounce (D : Nat) : List (String × Nat) → WatcherState → WatcherState
  | [], s => s
  | (p, t) :: rest, s => runDebounce D rest (handleArrival D p t s)

/-- finishAll lets every still-pending timer fire: time flows past all
remaining deadlines with no further events. -/
def finishAll (s : WatcherState) : WatcherState :=
  (mapKeys s.pendingFiles).foldl (fun st q => Watcher.processFile q st) s

def lastTime (a : Nat) : List Nat → Nat
  | [] => a
  | b :: l => lastTime b l

/-! ## Recursive scan of a newly created subdirectory
(watcher.go handleEvent and scanDir) -/

inductive Entry where
  | file (name : String)
  | dir (name : String) (entries : List Entry)

def joinPath (dir name : String) : String := dir ++ "/" ++ name

mutual
/-- scanDir on one directory entry: a subdirectory is added to the watch
list and scanned recursively, a file is handed to debounceFile. -/
def scanEntry (parent : String) : Entry → List String × List String
  | .file n => ([], [joinPath parent n])
  | .dir n es =>
      let p := joinPath parent n
      let r := scanEntries p es
      (p :: r.1, r.2)

/-- scanDir over the listed contents of a directory, in order. -/
def scanEntries (dir : String) : List Entry → List String × List String
  | [] => ([], [])
  | e :: rest =>
      let a := scanEntry dir e
      let b := scanEntries dir rest
      (a.1 ++ b.1, a.2 ++ b.2)
end

/-- handleEvent on a create event for a new directory: add a watch on it,
then scanDir it.  Returns (watched directory paths, file paths handed to
debounceFile). -/
def handleDirCreate (path : String) (entries : List Entry) : List String × List String :=
  let r := scanEntries path entries
  (path :: r.1, r.2)

/-- Feeding the files discovered by scanDir through debounceFile at the
time of the directory-creation event. -/
def debounceAll (D t : Nat) (paths : List String) (s : WatcherState) : WatcherState :=
  paths.foldl (fun st q => Watcher.debounceFile D t q st) s

/-- Description from the spec: q is the path of a pre-existing
subdirectory somewhere inside the scanned tree (recursively). -/
inductive IsDirAt : String → List Entry → String → Prop where
  | here (parent n : String) (es entries : List Entry) :
      Entry.dir n es ∈ entries → IsDirAt parent entries (joinPath parent n)
  | deeper (parent n q : String) (es entries : List Entry) :
      Entry.dir n es ∈ entries → IsDirAt (joinPath parent n) es q →
      IsDirAt parent entries q

/-- Description from the spec: q is the path of a pre-existing file
somewhere inside the scanned tree (recursively). -/
inductive IsFileAt : String → List Entry → String → Prop where
  | here (parent n : String) (entries : List Entry) :
      Entry.file n ∈ entries → IsFileAt parent entries (joinPath parent n)
  | deeper (parent n q : String) (es entries : List Entry) :
      Entry.dir n es ∈ entries → IsFileAt (joinPath parent n) es q →
      IsFileAt parent entries q

/-! ## ScanExisting (watcher.go): the synchronous startup scan -/

mutual
def walkFilesEntry (parent : String) : Entry → List String
  | .file n => [joinPath parent n]
  | .dir n es => walkFilesEntries (joinPath parent n) es

def walkFilesEntries (dir : String) : List Entry → List String
  | [] => []
  | e :: rest => walkFilesEntry dir e ++ walkFilesEntries dir rest
end

/-- ScanExisting walks the watch tree and calls processFile directly on
every file it finds — no debouncing for the startup scan. -/
def Watcher.scanExisting (watchDir : String) (entries : List Entry) (s : WatcherState) :
    WatcherState :=
  (walkFilesEntries watchDir entries).foldl (fun st q => Watcher.processFile q st) s

/-! ## DaemonSupervisor: PID-file singleton and Start (daemon.go) -/

structure PidEnv where
  pidFileContent : Option String
  alive : Nat → Bool
  currentPid : Nat

/-- Atoi on the non-negative decimal strings a PID file holds: all-digit
nonempty content parses to its decimal value, anything else fails. -/
def atoi (s : String) : Option Nat :=
  if s.data ≠ [] ∧ s.data.all Char.isDigit then
    some (s.data.foldl (fun n c => n * 10 + (c.toNat - 48)) 0)
  else none

/-- writePIDFile: an existing marker naming a live process aborts with an
"already running" error; a marker naming a dead process is overwritten
with a stale warning; a missing/unreadable or unparsable marker is
overwritten silently.  Atoi is modelled on the non-negative decimal
contents a PID file holds.  Returns the new marker content together with
whether the stale warning was logged. -/
def writePIDFile (env : PidEnv) : Except String (String × Bool) :=
  match env.pidFileContent with
  | some data =>
      match atoi data with
      | some existingPID =>
          if env.alive existingPID then
            .error ("daemon already running with PID " ++ toString existingPID)
          else .ok (toString env.currentPid, true)
      | none => .ok (toString env.currentPid, false)
  | none => .ok (toString env.currentPid, false)

structure DaemonOptions where
  watchDir : String
  quarantineDir : String
  pidFile : String
  stateFile : String
  debounceTime : Nat
  scanOnStartup : Bool
  cleanupEmpty : Bool
deriving DecidableEq, Repr

inductive StartAction where
  | wrotePidFile
  | signalsInstalled
  | watcherStarted
  | scannedExisting
deriving DecidableEq, Repr

/-- Daemon.Start: write the PID file (failure aborts startup), install
signal handlers, start the watcher (failure aborts), then call
ScanExisting (its error is only logged).  The ScanOnStartup field of
DaemonOptions is accepted but never consulted, exactly as in the code. -/
def daemonStart (env : PidEnv) (watcherStartErr : Option String)
    (_opts : DaemonOptions) : Except String (List StartAction) :=
  match writePIDFile env with
  | .error e => .error ("failed to write PID file: " ++ e)
  | .ok _ =>
      match watcherStartErr with
      | some e => .error ("failed to start watcher: " ++ e)
      | none =>
          .ok [.wrotePidFile, .signalsInstalled, .watcherStarted, .scannedExisting]

/-! ## ArtworkFetcher with single-flight deduplication

The CoverFetcher variant exercised by coverart_test.go (the one with
injectable musicBrainzBaseURL / coverArtArchiveURL fields and the
per-directory deduplication the test asserts) is not present in the
repository snapshot; only its test and its caller are.  Its FetchCover
pipeline and the single-flight registry are therefore modelled from the
spec.  determineFilename is taken from the source that is present. -/

/-- determineFilename returns the artwork filename for a content type. -/
def determineFilename (contentType : String) : String :=
  if contentType = "image/png" then "cover.png"
  else if contentType = "image/jpeg" ∨ contentType = "image/jpg" then "cover.jpg"
  else "cover.jpg"

inductive FetchResult where
  | skippedExisting
  | skippedNoMetadata
  | noRelease
  | noCoverArt
  | saved (filename : String)
  | failed (msg : String)
deriving DecidableEq, Repr

structure CoverEnv where
  hasCover : String → Bool
  searchRelease : String → String → Except String (Option String)
  fetchFrontCover : String → Except String (Option (List Nat × String))

/-- Modelled from the spec: the sequential body of FetchCover (the
missing coverart.go) — no-op when a cover exists or metadata is empty,
otherwise search MusicBrainz (zero matches is a no-op), fetch the front
cover (not-found is a no-op), and save under a content-type-derived
filename.  Returns the outcome together with the number of outbound
search requests performed (0 or 1). -/
def fetchCoverOnce (env : CoverEnv) (targetDir artist album : String) :
    FetchResult × Nat :=
  if env.hasCover targetDir then (.skippedExisting, 0)
  else if artist = "" ∨ album = "" then (.skippedNoMetadata, 0)
  else
    match env.searchRelease artist album with
    | .error e => (.failed ("MusicBrainz search failed: " ++ e), 1)
    | .ok none => (.noRelease, 1)
    | .ok (some mbid) =>
        match env.fetchFrontCover mbid with
        | .error e => (.failed ("failed to fetch cover art: " ++ e), 1)
        | .ok none => (.noCoverArt, 1)
        | .ok (some (_, contentType)) => (.saved (determineFilename contentType), 1)

/-- Modelled from the spec: single-flight deduplication (the missing
coverart.go) — a batch of concurrent FetchCover calls is served through
a per-directory registry: the first call for a directory performs the
lookup, every further concurrent call for the same directory shares its
resolved outcome, and calls for different directories are independent.
Returns (per-caller outcomes in call order, final registry, number of
outbound search requests). -/
def singleFlightRun (env : CoverEnv) :
    List (String × String × String) → List (String × FetchResult) →
    List FetchResult × List (String × FetchResult) × Nat
  | [], reg => ([], reg, 0)
  | (dir, artist, album) :: rest, reg =>
      match mapLookup reg dir with
      | some r =>
          let t := singleFlightRun env rest reg
          (r :: t.1, t.2.1, t.2.2)
      | none =>
          let r := fetchCoverOnce env dir artist album
          let t := singleFlightRun env rest (mapInsert reg dir r.1)
          (r.1 :: t.1, t.2.1, r.2 + t.2.2)

/-- Outcome and outbound search count of a batch of concurrent FetchCover
calls starting with an empty in-flight registry. -/
def concurrentFetch (env : CoverEnv) (calls : List (String × String × String)) :
    List FetchResult × Nat :=
  let t := singleFlightRun env calls []
  (t.1, t.2.2)

/-- Concrete environment for evaluating the artwork fetcher: no cover on
disk, every search matches, the front cover is available as a PNG. -/
def coverEnvTest : CoverEnv :=
  { hasCover := fun _ => false
    searchRelease := fun _ _ => .ok (some "mbid-1")
    fetchFrontCover := fun _ => .ok (some ([137, 80], "image/png")) }

/-! ## Lemmas and theorems -/

theorem append_tmp_ne (str : String) : str ++ ".tmp" ≠ str := by
  intro h
  have h2 := congrArg String.length h
  rw [String.length_append] at h2
  have h3 : String.length ".tmp" = 4 := rfl
  omega

theorem loadState_congr (fs1 fs2 : FS) (fp : String) (now : Nat) (openFails : Bool)
    (h : mapLookup fs1 fp = mapLookup fs2 fp) :
    loadState fs1 openFails fp now = loadState fs2 openFails fp now := by
  unfold loadState
  rw [h]

theorem mapLookup_insert_self {α : Type} (m : List (String × α)) (k : String) (v : α) :
    mapLookup (mapInsert m k v) k = some v := by
  induction m with
  | nil => simp [mapInsert, mapLookup]
  | cons kv rest ih =>
      obtain ⟨k1, v1⟩ := kv
      by_cases h : k1 = k
      · simp [mapInsert, h, mapLookup]
      · simp [mapInsert, h, mapLookup, ih]

theorem mapLookup_insert_other {α : Type} (m : List (String × α)) (k q : String) (v : α)
    (h : q ≠ k) : mapLookup (mapInsert m k v) q = mapLookup m q := by
  induction m with
  | nil =>
      simp only [mapInsert, mapLookup]
      rw [if_neg (Ne.symm h)]
  | cons kv rest ih =>
      obtain ⟨k1, v1⟩ := kv
      by_cases h1 : k1 = k
      · subst h1
        simp only [mapInsert, if_pos rfl, mapLookup]
        rw [if_neg (Ne.symm h), if_neg (Ne.symm h)]
      · simp only [mapInsert, if_neg h1, mapLookup]
        by_cases h2 : k1 = q
        · rw [if_pos h2, if_pos h2]
        · rw [if_neg h2, if_neg h2, ih]

theorem mapLookup_insert_isSome {α : Type} (m : List (String × α)) (k q : String) (v : α)
    (h : (mapLookup m q).isSome = true) :
    (mapLookup (mapInsert m k v) q).isSome = true := by
  by_cases hk : q = k
  · subst hk; simp [mapLookup_insert_self]
  · rw [mapLookup_insert_other m k q v hk]; exact h

theorem mapLookup_erase_self {α : Type} (m : List (String × α)) (k : String) :
    mapLookup (mapErase m k) k = none := by
  induction m with
  | nil => simp [mapErase, mapLookup]
  | cons kv rest ih =>
      obtain ⟨k1, v1⟩ := kv
      by_cases h : k1 = k
      · simpa [mapErase, h] using ih
      · simp only [mapErase, if_neg h, mapLookup, if_neg h]
        exact ih

theorem mapLookup_erase_other {α : Type} (m : List (String × α)) (k q : String)
    (h : q ≠ k) : mapLookup (mapErase m k) q = mapLookup m q := by
  induction m with
  | nil => simp [mapErase, mapLookup]
  | cons kv rest ih =>
      obtain ⟨k1, v1⟩ := kv
      by_cases h1 : k1 = k
      · subst h1
        simp only [mapErase, if_pos rfl, mapLookup]
        rw [if_neg (Ne.symm h)]
        exact ih
      · simp only [mapErase, if_neg h1, mapLookup]
        by_cases h2 : k1 = q
        · rw [if_pos h2, if_pos h2]
        · rw [if_neg h2, if_neg h2, ih]

/-- States of the ledger reachable from NewDaemonState by MarkProcessed
and Cleanup (IsProcessed, GetStats and GetProcessedCount are read-only). -/
inductive Reachable : DaemonState → Prop where
  | init (now : Nat) (fp : String) : Reachable (newDaemonState now fp)
  | mark (s : DaemonState) (f : ProcessedFile) : Reachable s →
      Reachable (DaemonState.markProcessed s f)
  | cleanupStep (s : DaemonState) (now maxAge : Nat) : Reachable s →
      Reachable (DaemonState.cleanup s now maxAge).1

/-- C5: IsProcessed(path, hash) is true iff a record for the path exists
whose stored hash equals the hash; it is false on a fresh store, true
right after MarkProcessed records that exact pair, and false again once a
later MarkProcessed for the same path carries a different hash. -/
theorem isProcessed_spec (s : DaemonState) (f : ProcessedFile) (p h : String)
    (now : Nat) (fp : String) :
    (DaemonState.isProcessed s p h = true ↔
      ∃ r, mapLookup s.processedFiles p = some r ∧ r.hash = h) ∧
    DaemonState.isProcessed (newDaemonState now fp) p h = false ∧
    DaemonState.isProcessed (DaemonState.markProcessed s f) f.path f.hash = true ∧
    (f.path = p → f.hash ≠ h →
      DaemonState.isProcessed (DaemonState.markProcessed s f) p h = false) := by
  refine ⟨?_, ?_, ?_, ?_⟩
  · unfold DaemonState.isProcessed
    cases hm : mapLookup s.processedFiles p with
    | none => simp
    | some r => simp
  · simp [DaemonState.isProcessed, newDaemonState, mapLookup]
  · simp [DaemonState.isProcessed, DaemonState.markProcessed, mapLookup_insert_self]
  · intro hp hne
    subst hp
    simp [DaemonState.isProcessed, DaemonState.markProcessed, mapLookup_insert_self, hne]

/-- Witness for C5: marking "/f" with hash "h1" and then re-marking it
with hash "h2" makes IsProcessed("/f", "h1") false again. -/
theorem isProcessed_spec_witness :
    DaemonState.isProcessed
      (DaemonState.markProcessed
        (DaemonState.markProcessed (newDaemonState 0 "/st")
          { path := "/f", hash := "h1", processedAt := 1, targetPath := "/t", success := true })
        { path := "/f", hash := "h2", processedAt := 2, targetPath := "/t", success := true })
      "/f" "h1" = false := by
  have h := isProcessed_spec
    (DaemonState.markProcessed (newDaemonState 0 "/st")
      { path := "/f", hash := "h1", processedAt := 1, targetPath := "/t", success := true })
    { path := "/f", hash := "h2", processedAt := 2, targetPath := "/t", success := true }
    "/f" "h1" 0 "/st"
  exact h.2.2.2 rfl (by decide)

/-- C10: on every reachable ledger state TotalProcessed equals
TotalSuccess + TotalFailed; MarkProcessed bumps TotalProcessed and
exactly one of TotalSuccess / TotalFailed; Cleanup removes records but
leaves all counters untouched. -/
theorem stats_invariant :
    (∀ s, Reachable s →
      s.stats.totalProcessed = s.stats.totalSuccess + s.stats.totalFailed) ∧
    (∀ (s : DaemonState) (f : ProcessedFile),
      (DaemonState.markProcessed s f).stats.totalProcessed
          = s.stats.totalProcessed + 1 ∧
      (f.success = true →
        (DaemonState.markProcessed s f).stats.totalSuccess = s.stats.totalSuccess + 1 ∧
        (DaemonState.markProcessed s f).stats.totalFailed = s.stats.totalFailed) ∧
      (f.success = false →
        (DaemonState.markProcessed s f).stats.totalFailed = s.stats.totalFailed + 1 ∧
        (DaemonState.markProcessed s f).stats.totalSuccess = s.stats.totalSuccess)) ∧
    (∀ (s : DaemonState) (now maxAge : Nat),
      (DaemonState.cleanup s now maxAge).1.stats = s.stats) := by
  refine ⟨?_, ?_, ?_⟩
  · intro s hr
    induction hr with
    | init now fp => simp [newDaemonState]
    | mark s f _ ih =>
        cases hs : f.success <;> simp [DaemonState.markProcessed, hs] <;> omega
    | cleanupStep s now maxAge _ ih =>
        simpa [DaemonState.cleanup] using ih
  · intro s f
    cases hs : f.success <;> simp [DaemonState.markProcessed, hs]
  · intro s now maxAge
    rfl

/-- Witness for C10: the invariant holds at a concrete reachable state,
obtained by one successful MarkProcessed from a fresh store. -/
theorem stats_invariant_witness :
    (DaemonState.markProcessed (newDaemonState 0 "/st")
        { path := "/f", hash := "h", processedAt := 1, targetPath := "", success := true }).stats.totalProcessed =
      (DaemonState.markProcessed (newDaemonState 0 "/st")
        { path := "/f", hash := "h", processedAt := 1, targetPath := "", success := true }).stats.totalSuccess +
      (DaemonState.markProcessed (newDaemonState 0 "/st")
        { path := "/f", hash := "h", processedAt := 1, targetPath := "", success := true }).stats.totalFailed :=
  stats_invariant.1 _ (Reachable.mark _ _ (Reachable.init 0 "/st"))

/-- C4: Save followed by LoadState on the same target path reproduces an
equivalent ledger — the identical record map and the identical counters
(LastRun and filePath are refreshed on load, as the code does). -/
theorem save_load_roundtrip (s : DaemonState) (fs : FS) (now : Nat) :
    (DaemonState.save s .ok fs).1 = .ok () ∧
    loadState (DaemonState.save s .ok fs).2 false s.filePath now =
      .ok { processedFiles := s.processedFiles, lastRun := now,
            stats := s.stats, filePath := s.filePath } := by
  constructor
  · rfl
  · show loadState
        (fsRename (mapInsert fs (s.filePath ++ ".tmp") (encodeState s))
          (s.filePath ++ ".tmp") s.filePath) false s.filePath now = _
    unfold fsRename
    rw [mapLookup_insert_self]
    unfold loadState
    rw [mapLookup_insert_self]
    rfl

/-- C3: when Save fails at temp-file creation, encoding or close, it
returns an error, the temp file (filePath + ".tmp", in the target's
directory) is gone, the persisted snapshot is untouched, and a subsequent
LoadState still returns the prior good snapshot (or a fresh store if none
existed); a crash that leaves the temp file written but not renamed does
not change what LoadState returns either. -/
theorem save_error_preserves_snapshot (s : DaemonState) (fs : FS) (now : Nat)
    (fault : SaveFault)
    (htemp : mapLookup fs (s.filePath ++ ".tmp") = none)
    (hfault : fault = .createFail ∨ fault = .encodeFail ∨ fault = .closeFail) :
    (∃ e, (DaemonState.save s fault fs).1 = .error e) ∧
    mapLookup (DaemonState.save s fault fs).2 (s.filePath ++ ".tmp") = none ∧
    mapLookup (DaemonState.save s fault fs).2 s.filePath = mapLookup fs s.filePath ∧
    loadState (DaemonState.save s fault fs).2 false s.filePath now =
      loadState fs false s.filePath now ∧
    (mapLookup fs s.filePath = none →
      loadState (DaemonState.save s fault fs).2 false s.filePath now =
        .ok (newDaemonState now s.filePath)) ∧
    (∀ prior : DaemonState, mapLookup fs s.filePath = some (encodeState prior) →
      loadState (DaemonState.save s fault fs).2 false s.filePath now =
        .ok { processedFiles := prior.processedFiles, lastRun := now,
              stats := prior.stats, filePath := s.filePath }) ∧
    (∀ d : FileData,
      loadState (mapInsert fs (s.filePath ++ ".tmp") d) false s.filePath now =
        loadState fs false s.filePath now) := by
  have hfp : s.filePath ≠ s.filePath ++ ".tmp" := Ne.symm (append_tmp_ne s.filePath)
  have hkey : mapLookup (DaemonState.save s fault fs).2 s.filePath = mapLookup fs s.filePath ∧
      mapLookup (DaemonState.save s fault fs).2 (s.filePath ++ ".tmp") = none := by
    rcases hfault with h | h | h <;> subst h
    · exact ⟨rfl, htemp⟩
    · constructor
      · show mapLookup (mapErase (mapInsert fs _ _) _) s.filePath = _
        rw [mapLookup_erase_other _ _ _ hfp, mapLookup_insert_other _ _ _ _ hfp]
      · exact mapLookup_erase_self _ _
    · constructor
      · show mapLookup (mapErase (mapInsert fs _ _) _) s.filePath = _
        rw [mapLookup_erase_other _ _ _ hfp, mapLookup_insert_other _ _ _ _ hfp]
      · exact mapLookup_erase_self _ _
  have hload : loadState (DaemonState.save s fault fs).2 false s.filePath now =
      loadState fs false s.filePath now := loadState_congr _ _ _ _ _ hkey.1
  refine ⟨?_, hkey.2, hkey.1, hload, ?_, ?_, ?_⟩
  · rcases hfault with h | h | h <;> subst h <;> exact ⟨_, rfl⟩
  · intro hnone
    rw [hload]
    unfold loadState
    rw [hnone]
  · intro prior hsome
    rw [hload]
    unfold loadState
    rw [hsome]
    rfl
  · intro d
    exact loadState_congr _ _ _ _ _ (mapLookup_insert_other fs _ _ d hfp)

/-- Witness for C3: a concrete Save that fails at the encoding step on a
filesystem holding a prior snapshot returns an error and leaves the
snapshot readable unchanged. -/
theorem save_error_preserves_snapshot_witness :
    (∃ e, (DaemonState.save (newDaemonState 0 "/st") .encodeFail
        [("/st", encodeState (newDaemonState 7 "/st"))]).1 = .error e) ∧
    mapLookup (DaemonState.save (newDaemonState 0 "/st") .encodeFail
        [("/st", encodeState (newDaemonState 7 "/st"))]).2 "/st" =
      mapLookup [("/st", encodeState (newDaemonState 7 "/st"))] "/st" := by
  have h := save_error_preserves_snapshot (newDaemonState 0 "/st")
    [("/st", encodeState (newDaemonState 7 "/st"))] 3 .encodeFail
    (by decide) (Or.inr (Or.inl rfl))
  exact ⟨h.1, h.2.2.1⟩

/-- C7 (amended): a missing state file yields a fresh empty store and no
error, and a file that opens but fails to decode yields a fresh empty
store with a warning; an open failure other than not-exist, however, is
returned as an error. -/
theorem loadState_missing_or_corrupt_fresh (fs : FS) (fp : String) (now : Nat) :
    (newDaemonState now fp).processedFiles = [] ∧
    (newDaemonState now fp).stats.totalProcessed = 0 ∧
    (newDaemonState now fp).stats.totalSuccess = 0 ∧
    (newDaemonState now fp).stats.totalFailed = 0 ∧
    (mapLookup fs fp = none → loadState fs false fp now = .ok (newDaemonState now fp)) ∧
    (mapLookup fs fp = some .corrupt → loadState fs false fp now = .ok (newDaemonState now fp)) := by
  refine ⟨rfl, rfl, rfl, rfl, ?_, ?_⟩
  · intro h
    unfold loadState
    rw [h]
  · intro h
    unfold loadState
    rw [h]
    rfl

/-- Witness for C7: loading from an empty filesystem and from a corrupt
state file both yield the fresh empty store. -/
theorem loadState_missing_or_corrupt_fresh_witness :
    loadState [] false "/s" 0 = .ok (newDaemonState 0 "/s") ∧
    loadState [("/s", FileData.corrupt)] false "/s" 0 = .ok (newDaemonState 0 "/s") :=
  ⟨(loadState_missing_or_corrupt_fresh [] "/s" 0).2.2.2.2.1 rfl,
   (loadState_missing_or_corrupt_fresh [("/s", FileData.corrupt)] "/s" 0).2.2.2.2.2 (by decide)⟩

/-- C7 counterexample: a state file that exists but cannot be opened makes
LoadState return an error rather than a fresh store, so startup is
blocked in that case. -/
theorem loadState_open_error_counterexample :
    loadState [("/s", FileData.corrupt)] true "/s" 0 = .error "failed to open state file" ∧
    loadState [("/s", FileData.corrupt)] true "/s" 0 ≠ .ok (newDaemonState 0 "/s") := by
  refine ⟨rfl, fun h => ?_⟩
  rw [show loadState [("/s", FileData.corrupt)] true "/s" 0 =
      .error "failed to open state file" from rfl] at h
  exact Except.noConfusion h

theorem debounceFile_pending (D t : Nat) (p : String) (s : WatcherState) :
    Watcher.debounceFile D t p s =
      { s with pendingFiles := mapInsert s.pendingFiles p ⟨p, t, t + D⟩ } := by
  unfold Watcher.debounceFile
  cases mapLookup s.pendingFiles p <;> rfl

theorem fireDue_not_due (t : Nat) (p : String) (ev : FileEvent) (f : List String)
    (h : ¬ ev.deadline ≤ t) :
    fireDue t { pendingFiles := [(p, ev)], fired := f } =
      { pendingFiles := [(p, ev)], fired := f } := by
  simp [fireDue, h]

theorem runDebounce_single_path (D : Nat) (p : String) (f : List String) :
    ∀ (tc : Nat) (ts : List Nat),
      List.Chain' (fun a b => a ≤ b ∧ b < a + D) (tc :: ts) →
      runDebounce D (ts.map (fun t => (p, t)))
          { pendingFiles := [(p, ⟨p, tc, tc + D⟩)], fired := f } =
        { pendingFiles := [(p, ⟨p, lastTime tc ts, lastTime tc ts + D⟩)], fired := f } := by
  intro tc ts
  induction ts generalizing tc with
  | nil => intro _; rfl
  | cons t rest ih =>
      intro hchain
      rw [List.chain'_cons] at hchain
      obtain ⟨⟨hle, hlt⟩, hchain2⟩ := hchain
      have hnd : ¬ ((⟨p, tc, tc + D⟩ : FileEvent).deadline ≤ t) := by
        show ¬ (tc + D ≤ t)
        omega
      show runDebounce D ((p, t) :: rest.map (fun u => (p, u))) _ = _
      rw [runDebounce, handleArrival, fireDue_not_due _ _ _ _ hnd, debounceFile_pending]
      have hmi : mapInsert [(p, (⟨p, tc, tc + D⟩ : FileEvent))] p ⟨p, t, t + D⟩ =
          [(p, (⟨p, t, t + D⟩ : FileEvent))] := by
        simp [mapInsert]
      rw [hmi]
      exact ih t hchain2

/-- C2: N successive events for one path, each arriving before the
previously started quiet-period timer of duration D fires, produce
exactly one processFile invocation once the final timer fires (the first
event starts the timer, every later one replaces it), and at no point
does the pending map hold more than one entry for the path. -/
theorem debounce_coalesces (D : Nat) (p : String) (t0 : Nat) (ts : List Nat)
    (hchain : List.Chain' (fun a b => a ≤ b ∧ b < a + D) (t0 :: ts)) :
    (finishAll (runDebounce D ((t0 :: ts).map (fun t => (p, t))) initialWatcher)).fired = [p] ∧
    (∀ k : Nat,
      ((runDebounce D (((t0 :: ts).map (fun t => (p, t))).take k)
          initialWatcher).pendingFiles.filter
        (fun kv => (kv.1 = p : Bool))).length ≤ 1) := by
  constructor
  · rw [show runDebounce D ((t0 :: ts).map (fun t => (p, t))) initialWatcher =
        runDebounce D (ts.map (fun t => (p, t)))
          { pendingFiles := [(p, ⟨p, t0, t0 + D⟩)], fired := [] } from rfl]
    rw [runDebounce_single_path D p [] t0 ts hchain]
    simp [finishAll, mapKeys, Watcher.processFile, mapErase]
  · intro k
    cases k with
    | zero => simp [runDebounce, initialWatcher]
    | succ n =>
        have htake : ((t0 :: ts).map (fun t => (p, t))).take (n + 1) =
            (p, t0) :: ((ts.take n).map (fun t => (p, t))) := by
          simp [List.map_take]
        rw [htake]
        rw [show runDebounce D ((p, t0) :: ((ts.take n).map (fun t => (p, t)))) initialWatcher =
            runDebounce D ((ts.take n).map (fun t => (p, t)))
              { pendingFiles := [(p, ⟨p, t0, t0 + D⟩)], fired := [] } from rfl]
        have hch : List.Chain' (fun a b => a ≤ b ∧ b < a + D) (t0 :: ts.take n) := by
          have h2 := hchain.take (n + 1)
          simpa using h2
        rw [runDebounce_single_path D p [] t0 (ts.take n) hch]
        simp

/-- Witness for C2: three events for path "a" at times 0, 1, 2 with quiet
period 2 yield exactly one processing invocation, and after two of the
events the pending map holds a single entry for "a". -/
theorem debounce_coalesces_witness :
    (finishAll (runDebounce 2 ([0, 1, 2].map (fun t => ("a", t))) initialWatcher)).fired = ["a"] ∧
    ((runDebounce 2 (([0, 1, 2].map (fun t => ("a", t))).take 2)
        initialWatcher).pendingFiles.filter
      (fun kv => (kv.1 = "a" : Bool))).length ≤ 1 := by
  have h := debounce_coalesces 2 "a" 0 [1, 2] (by simp [List.chain'_cons])
  exact ⟨h.1, h.2 2⟩

theorem scanEntry_sub (dir : String) (e : Entry) (entries : List Entry) (he : e ∈ entries) :
    (∀ q, q ∈ (scanEntry dir e).1 → q ∈ (scanEntries dir entries).1) ∧
    (∀ q, q ∈ (scanEntry dir e).2 → q ∈ (scanEntries dir entries).2) := by
  induction entries with
  | nil => cases he
  | cons a rest ih =>
      rcases List.mem_cons.mp he with h | h
      · subst h
        constructor
        · intro q hq
          show q ∈ (scanEntry dir e).1 ++ (scanEntries dir rest).1
          exact List.mem_append_left _ hq
        · intro q hq
          show q ∈ (scanEntry dir e).2 ++ (scanEntries dir rest).2
          exact List.mem_append_left _ hq
      · obtain ⟨ih1, ih2⟩ := ih h
        constructor
        · intro q hq
          show q ∈ (scanEntry dir a).1 ++ (scanEntries dir rest).1
          exact List.mem_append_right _ (ih1 q hq)
        · intro q hq
          show q ∈ (scanEntry dir a).2 ++ (scanEntries dir rest).2
          exact List.mem_append_right _ (ih2 q hq)

theorem isDirAt_mem_scan (parent q : String) (entries : List Entry)
    (h : IsDirAt parent entries q) : q ∈ (scanEntries parent entries).1 := by
  induction h with
  | here parent n es entries hmem =>
      apply (scanEntry_sub parent (Entry.dir n es) entries hmem).1
      show joinPath parent n ∈ joinPath parent n :: (scanEntries (joinPath parent n) es).1
      exact List.mem_cons_self _ _
  | deeper parent n q es entries hmem _ ih =>
      apply (scanEntry_sub parent (Entry.dir n es) entries hmem).1
      show q ∈ joinPath parent n :: (scanEntries (joinPath parent n) es).1
      exact List.mem_cons_of_mem _ ih

theorem isFileAt_mem_scan (parent q : String) (entries : List Entry)
    (h : IsFileAt parent entries q) : q ∈ (scanEntries parent entries).2 := by
  induction h with
  | here parent n entries hmem =>
      apply (scanEntry_sub parent (Entry.file n) entries hmem).2
      show joinPath parent n ∈ [joinPath parent n]
      exact List.mem_singleton.mpr rfl
  | deeper parent n q es entries hmem _ ih =>
      apply (scanEntry_sub parent (Entry.dir n es) entries hmem).2
      exact ih

theorem debounceAll_fired (D t : Nat) (paths : List String) (s : WatcherState) :
    (debounceAll D t paths s).fired = s.fired := by
  induction paths generalizing s with
  | nil => rfl
  | cons a rest ih =>
      show (debounceAll D t rest (Watcher.debounceFile D t a s)).fired = s.fired
      rw [ih, debounceFile_pending]

theorem debounceAll_isSome (D t : Nat) (paths : List String) (s : WatcherState) (q : String)
    (h : (mapLookup s.pendingFiles q).isSome = true) :
    (mapLookup (debounceAll D t paths s).pendingFiles q).isSome = true := by
  induction paths generalizing s with
  | nil => exact h
  | cons a rest ih =>
      show (mapLookup (debounceAll D t rest
          (Watcher.debounceFile D t a s)).pendingFiles q).isSome = true
      apply ih
      rw [debounceFile_pending]
      exact mapLookup_insert_isSome _ _ _ _ h

theorem debounceAll_mem_isSome (D t : Nat) (paths : List String) (s : WatcherState) (q : String)
    (h : q ∈ paths) :
    (mapLookup (debounceAll D t paths s).pendingFiles q).isSome = true := by
  induction paths generalizing s with
  | nil => cases h
  | cons a rest ih =>
      show (mapLookup (debounceAll D t rest
          (Watcher.debounceFile D t a s)).pendingFiles q).isSome = true
      rcases List.mem_cons.mp h with h1 | h1
      · subst h1
        apply debounceAll_isSome
        rw [debounceFile_pending]
        simp [mapLookup_insert_self]
      · exact ih _ h1

theorem foldl_processFile_fired (ks : List String) (s : WatcherState) :
    (ks.foldl (fun st q => Watcher.processFile q st) s).fired = s.fired ++ ks := by
  induction ks generalizing s with
  | nil => simp
  | cons a rest ih =>
      show (rest.foldl _ (Watcher.processFile a s)).fired = _
      rw [ih]
      simp [Watcher.processFile]

theorem mapLookup_isSome_mem_keys {α : Type} (m : List (String × α)) (q : String)
    (h : (mapLookup m q).isSome = true) : q ∈ mapKeys m := by
  induction m with
  | nil => simp [mapLookup] at h
  | cons kv rest ih =>
      obtain ⟨k1, v1⟩ := kv
      by_cases hk : k1 = q
      · show q ∈ k1 :: mapKeys rest
        rw [hk]
        exact List.mem_cons_self _ _
      · have h2 := ih (by simpa [mapLookup, hk] using h)
        exact List.mem_cons_of_mem _ h2

theorem finishAll_mem_fired (s : WatcherState) (q : String)
    (h : (mapLookup s.pendingFiles q).isSome = true) :
    q ∈ (finishAll s).fired := by
  unfold finishAll
  rw [foldl_processFile_fired]
  exact List.mem_append_right _ (mapLookup_isSome_mem_keys _ _ h)

/-- C6 (amended): when a new subdirectory is observed being created the
watcher adds a watch on it and walks its contents recursively — every
pre-existing subdirectory becomes a further watch target — and hands each
pre-existing file to debounceFile: the file enters the pending map to be
processed when its quiet-period timer fires, with no second external
trigger required, but it is not processed immediately (no invocation
happens before the quiet period elapses). -/
theorem scanDir_amended (D t : Nat) (p : String) (entries : List Entry) :
    p ∈ (handleDirCreate p entries).1 ∧
    (∀ q, IsDirAt p entries q → q ∈ (handleDirCreate p entries).1) ∧
    (∀ q, IsFileAt p entries q →
      q ∈ (handleDirCreate p entries).2 ∧
      (mapLookup (debounceAll D t (handleDirCreate p entries).2
          initialWatcher).pendingFiles q).isSome = true ∧
      q ∈ (finishAll (debounceAll D t (handleDirCreate p entries).2
          initialWatcher)).fired) ∧
    (debounceAll D t (handleDirCreate p entries).2 initialWatcher).fired = [] := by
  refine ⟨List.mem_cons_self _ _, ?_, ?_, ?_⟩
  · intro q hq
    exact List.mem_cons_of_mem _ (isDirAt_mem_scan p q entries hq)
  · intro q hq
    have hmem : q ∈ (handleDirCreate p entries).2 := isFileAt_mem_scan p q entries hq
    have hsome := debounceAll_mem_isSome D t _ initialWatcher q hmem
    exact ⟨hmem, hsome, finishAll_mem_fired _ q hsome⟩
  · simpa using debounceAll_fired D t (handleDirCreate p entries).2 initialWatcher

/-- Witness for C6: a new directory containing a nested subdirectory with
one file: the subdirectory is watched, the file is in the debounce map
and fires after the quiet period. -/
theorem scanDir_amended_witness :
    "/w/new/cd1" ∈ (handleDirCreate "/w/new" [Entry.dir "cd1" [Entry.file "a.mp3"]]).1 ∧
    "/w/new/cd1/a.mp3" ∈ (handleDirCreate "/w/new" [Entry.dir "cd1" [Entry.file "a.mp3"]]).2 ∧
    "/w/new/cd1/a.mp3" ∈ (finishAll (debounceAll 2 5
        (handleDirCreate "/w/new" [Entry.dir "cd1" [Entry.file "a.mp3"]]).2
        initialWatcher)).fired := by
  have h := scanDir_amended 2 5 "/w/new" [Entry.dir "cd1" [Entry.file "a.mp3"]]
  have hdir : IsDirAt "/w/new" [Entry.dir "cd1" [Entry.file "a.mp3"]] "/w/new/cd1" := by
    have h2 := IsDirAt.here "/w/new" "cd1" [Entry.file "a.mp3"]
      [Entry.dir "cd1" [Entry.file "a.mp3"]] (List.mem_singleton.mpr rfl)
    simpa [joinPath] using h2
  have hfile : IsFileAt "/w/new" [Entry.dir "cd1" [Entry.file "a.mp3"]] "/w/new/cd1/a.mp3" := by
    have h3 := IsFileAt.deeper "/w/new" "cd1" "/w/new/cd1/a.mp3" [Entry.file "a.mp3"]
      [Entry.dir "cd1" [Entry.file "a.mp3"]] (List.mem_singleton.mpr rfl)
      (by
        have h4 := IsFileAt.here (joinPath "/w/new" "cd1") "a.mp3" [Entry.file "a.mp3"]
          (List.mem_singleton.mpr rfl)
        simpa [joinPath] using h4)
    exact h3
  have hf := h.2.2.1 _ hfile
  exact ⟨h.2.1 _ hdir, hf.1, hf.2.2⟩

/-- C6 counterexample: a pre-existing file discovered inside a freshly
created directory is not processed immediately — no processing invocation
has happened right after the event; the file sits in the debounce map
with its deadline a full quiet period in the future. -/
theorem scanDir_immediate_counterexample :
    ¬ ("/watch/new/a.mp3" ∈
        (debounceAll 2 5 (handleDirCreate "/watch/new" [Entry.file "a.mp3"]).2
          initialWatcher).fired) ∧
    mapLookup (debounceAll 2 5 (handleDirCreate "/watch/new" [Entry.file "a.mp3"]).2
        initialWatcher).pendingFiles "/watch/new/a.mp3" =
      some ⟨"/watch/new/a.mp3", 5, 7⟩ := by
  constructor
  · decide
  · decide

/-- C8: a PID marker naming a still-live process makes startup fail with
an explicit "already running" error and Start does not proceed; a marker
naming a dead process is overwritten with the current PID, a stale
warning is logged, and startup succeeds. -/
theorem pidfile_singleton (env : PidEnv) (data : String) (pid : Nat)
    (werr : Option String) (opts : DaemonOptions)
    (hcontent : env.pidFileContent = some data) (hparse : atoi data = some pid) :
    (env.alive pid = true →
      writePIDFile env = .error ("daemon already running with PID " ++ toString pid) ∧
      daemonStart env werr opts =
        .error ("failed to write PID file: " ++
          ("daemon already running with PID " ++ toString pid))) ∧
    (env.alive pid = false →
      writePIDFile env = .ok (toString env.currentPid, true) ∧
      daemonStart env none opts =
        .ok [.wrotePidFile, .signalsInstalled, .watcherStarted, .scannedExisting]) := by
  constructor
  · intro halive
    have hw : writePIDFile env =
        .error ("daemon already running with PID " ++ toString pid) := by
      unfold writePIDFile
      rw [hcontent]
      simp only []
      rw [hparse]
      simp [halive]
    exact ⟨hw, by simp [daemonStart, hw]⟩
  · intro halive
    have hw : writePIDFile env = .ok (toString env.currentPid, true) := by
      unfold writePIDFile
      rw [hcontent]
      simp only []
      rw [hparse]
      simp [halive]
    exact ⟨hw, by simp [daemonStart, hw]⟩

/-- Witness for C8: a marker holding "123": with process 123 alive the
start is refused; with it dead the marker is overwritten with a warning. -/
theorem pidfile_singleton_witness :
    writePIDFile { pidFileContent := some "123"
                   alive := fun n => n == 123
                   currentPid := 999 } =
      .error ("daemon already running with PID " ++ toString 123) ∧
    writePIDFile { pidFileContent := some "123"
                   alive := fun _ => false
                   currentPid := 999 } =
      .ok (toString 999, true) := by
  have h1 := pidfile_singleton
    { pidFileContent := some "123", alive := fun n => n == 123, currentPid := 999 }
    "123" 123 none
    { watchDir := "/w", quarantineDir := "/q", pidFile := "/p", stateFile := "/s",
      debounceTime := 2, scanOnStartup := true, cleanupEmpty := true }
    rfl (by decide)
  have h2 := pidfile_singleton
    { pidFileContent := some "123", alive := fun _ => false, currentPid := 999 }
    "123" 123 none
    { watchDir := "/w", quarantineDir := "/q", pidFile := "/p", stateFile := "/s",
      debounceTime := 2, scanOnStartup := true, cleanupEmpty := true }
    rfl (by decide)
  exact ⟨(h1.1 rfl).1, (h2.2 rfl).1⟩

/-- C9: Daemon.Start at options with ScanOnStartup switched off still
performs the startup scan: the sequence of start actions ends with
ScanExisting, and ScanExisting processes pre-existing files directly with
no debounce applied. -/
theorem start_scans_unconditionally :
    daemonStart { pidFileContent := none, alive := fun _ => false, currentPid := 42 } none
        { watchDir := "/w", quarantineDir := "/q", pidFile := "/p", stateFile := "/s",
          debounceTime := 2, scanOnStartup := false, cleanupEmpty := true } =
      .ok [.wrotePidFile, .signalsInstalled, .watcherStarted, .scannedExisting] ∧
    StartAction.scannedExisting ∈
      [StartAction.wrotePidFile, .signalsInstalled, .watcherStarted, .scannedExisting] ∧
    (Watcher.scanExisting "/w" [Entry.dir "album" [Entry.file "a.mp3"]]
        initialWatcher).fired = ["/w/album/a.mp3"] := by
  refine ⟨rfl, ?_, ?_⟩
  · decide
  · rfl

theorem fetchCoverOnce_searches (env : CoverEnv) (d a b : String)
    (hc : env.hasCover d = false) (ha : ¬ a = "") (hb : ¬ b = "") :
    (fetchCoverOnce env d a b).2 = 1 := by
  have hab : ¬ (a = "" ∨ b = "") := by
    rintro (h | h)
    exacts [ha h, hb h]
  unfold fetchCoverOnce
  rw [if_neg (by rw [hc]; exact Bool.false_ne_true), if_neg hab]
  cases hs : env.searchRelease a b with
  | error e => rfl
  | ok o =>
      cases o with
      | none => rfl
      | some mbid =>
          cases hf : env.fetchFrontCover mbid with
          | error e => simp [hf]
          | ok oc =>
              rcases oc with _ | ⟨bytes, ctype⟩ <;> simp [hf]

theorem singleFlightRun_hit (env : CoverEnv) (d a b : String) (r : FetchResult)
    (K : Nat) (reg : List (String × FetchResult)) (hreg : mapLookup reg d = some r) :
    singleFlightRun env (List.replicate K (d, a, b)) reg = (List.replicate K r, reg, 0) := by
  induction K with
  | zero => rfl
  | succ n ih =>
      rw [List.replicate_succ]
      rw [singleFlightRun, hreg]
      simp [ih, List.replicate_succ]

theorem singleFlightRun_miss (env : CoverEnv) (d a b : String) (K : Nat)
    (reg : List (String × FetchResult)) (hreg : mapLookup reg d = none) :
    singleFlightRun env (List.replicate (K + 1) (d, a, b)) reg =
      (List.replicate (K + 1) (fetchCoverOnce env d a b).1,
       mapInsert reg d (fetchCoverOnce env d a b).1,
       (fetchCoverOnce env d a b).2) := by
  simp only [List.replicate_succ, singleFlightRun, hreg]
  rw [singleFlightRun_hit env d a b _ K _ (mapLookup_insert_self reg d _)]
  simp [List.replicate_succ]

theorem singleFlightRun_append (env : CoverEnv) (l1 l2 : List (String × String × String))
    (reg : List (String × FetchResult)) :
    singleFlightRun env (l1 ++ l2) reg =
      ((singleFlightRun env l1 reg).1 ++
         (singleFlightRun env l2 (singleFlightRun env l1 reg).2.1).1,
       (singleFlightRun env l2 (singleFlightRun env l1 reg).2.1).2.1,
       (singleFlightRun env l1 reg).2.2 +
         (singleFlightRun env l2 (singleFlightRun env l1 reg).2.1).2.2) := by
  induction l1 generalizing reg with
  | nil => simp [singleFlightRun]
  | cons c rest ih =>
      obtain ⟨dir, artist, album⟩ := c
      show singleFlightRun env ((dir, artist, album) :: (rest ++ l2)) reg = _
      rw [singleFlightRun, singleFlightRun]
      cases hm : mapLookup reg dir with
      | some r => simp [ih]
      | none => simp [ih, Nat.add_assoc]

/-- C1: K concurrent FetchCover calls for one target directory needing a
fetch (no existing cover, nonempty artist and album) collapse into
exactly one outbound search+fetch, every one of the K callers observes
the single shared resolved outcome (the shared success or the shared
error), and calls split across two distinct target directories produce
exactly two outbound searches. -/
theorem fetchCover_single_flight (env : CoverEnv) (K K1 K2 : Nat)
    (d d1 d2 a b : String)
    (hK : 1 ≤ K) (hK1 : 1 ≤ K1) (hK2 : 1 ≤ K2)
    (hc : env.hasCover d = false) (ha : ¬ a = "") (hb : ¬ b = "")
    (hc1 : env.hasCover d1 = false) (hc2 : env.hasCover d2 = false)
    (hd : d1 ≠ d2) :
    (concurrentFetch env (List.replicate K (d, a, b))).2 = 1 ∧
    (concurrentFetch env (List.replicate K (d, a, b))).1 =
      List.replicate K (fetchCoverOnce env d a b).1 ∧
    (concurrentFetch env
        (List.replicate K1 (d1, a, b) ++ List.replicate K2 (d2, a, b))).2 = 2 := by
  obtain ⟨K0, rfl⟩ : ∃ n, K = n + 1 := ⟨K - 1, by omega⟩
  obtain ⟨K10, rfl⟩ : ∃ n, K1 = n + 1 := ⟨K1 - 1, by omega⟩
  obtain ⟨K20, rfl⟩ : ∃ n, K2 = n + 1 := ⟨K2 - 1, by omega⟩
  have hmain := singleFlightRun_miss env d a b K0 [] rfl
  have h1 := singleFlightRun_miss env d1 a b K10 [] rfl
  have hlook2 : mapLookup (mapInsert ([] : List (String × FetchResult)) d1
      (fetchCoverOnce env d1 a b).1) d2 = none := by
    simp [mapInsert, mapLookup, hd]
  have h2 := singleFlightRun_miss env d2 a b K20 _ hlook2
  refine ⟨?_, ?_, ?_⟩
  · show (singleFlightRun env (List.replicate (K0 + 1) (d, a, b)) []).2.2 = 1
    rw [hmain]
    exact fetchCoverOnce_searches env d a b hc ha hb
  · show (singleFlightRun env (List.replicate (K0 + 1) (d, a, b)) []).1 = _
    rw [hmain]
  · show (singleFlightRun env
        (List.replicate (K10 + 1) (d1, a, b) ++ List.replicate (K20 + 1) (d2, a, b)) []).2.2 = 2
    rw [singleFlightRun_append, h1, h2]
    have hs1 := fetchCoverOnce_searches env d1 a b hc1 ha hb
    have hs2 := fetchCoverOnce_searches env d2 a b hc2 ha hb
    simp only []
    omega

/-- Witness for C1: three concurrent calls for one directory perform one
search and all see the saved-PNG outcome; two plus two calls across two
directories perform two searches. -/
theorem fetchCover_single_flight_witness :
    (concurrentFetch coverEnvTest (List.replicate 3 ("/m/x", "A", "B"))).2 = 1 ∧
    (concurrentFetch coverEnvTest (List.replicate 3 ("/m/x", "A", "B"))).1 =
      List.replicate 3 (FetchResult.saved "cover.png") ∧
    (concurrentFetch coverEnvTest
        (List.replicate 2 ("/m/x1", "A", "B") ++ List.replicate 2 ("/m/x2", "A", "B"))).2 = 2 := by
  have h := fetchCover_single_flight coverEnvTest 3 2 2 "/m/x" "/m/x1" "/m/x2" "A" "B"
    (by omega) (by omega) (by omega) rfl (by decide) (by decide) rfl rfl (by decide)
  refine ⟨h.1, ?_, h.2.2⟩
  rw [h.2.1]
  rfl

end Librato
